import Mathlib

/-!
# Verification of chess-artist.py against its specification

Shallow embedding of the score-annotation, complexity, mate-score and
EPD-test logic of `chess-artist.py`.  Scores in pawn units are modelled
as rationals (the program only negates and compares them, which is exact),
centipawn and mate values as integers, and counters as naturals.
-/

namespace ChessArtist

/-- `MAX_SCORE = 32000` from the source header. -/
def MAX_SCORE : Int := 32000

/-- `WIN_SCORE = 6.0` from the source header, in pawn units. -/
def WIN_SCORE : ℚ := 6

/-- `BOOK_MOVE_LIMIT = 30` from the source header. -/
def BOOK_MOVE_LIMIT : Nat := 30

/-- Embedding of `Analyze.GetBadNag(side, posScore, engScore)`.
`side = true` is White; for Black both scores are negated first.
Returns the NAG string: `$4` blunder, `$2` mistake, `$6` dubious,
`$5` interesting, `$0` none.  The source computes the ladder result
into `moveNag` and then applies the `posScore >= engScore` override
as a separate final `if`. -/
def GetBadNag (side : Bool) (posScore engScore : ℚ) : String :=
  let posScore := if !side then -posScore else posScore
  let engScore := if !side then -engScore else engScore
  let moveNag :=
    if posScore < -1.5 ∧ engScore ≥ -1.5 then "$4"
    else if posScore < -0.75 ∧ engScore ≥ -0.75 then "$2"
    else if posScore < -0.15 ∧ engScore ≥ -0.15 then "$6"
    else if engScore > 1.5 ∧ posScore ≤ 1.5 then "$2"
    else "$0"
  if posScore ≥ engScore then "$5" else moveNag

/-- The decision procedure claimed by the spec for `BadNag`, written with the
override as the first test since it is unconditional and cancels any earlier
ladder result: Interesting whenever `posScore ≥ engScore`; otherwise Blunder
when `posScore < -1.50 ≤ engScore`, else Mistake when
`posScore < -0.75 ≤ engScore`, else Dubious when `posScore < -0.15 ≤ engScore`,
else Mistake when `engScore > 1.50` and `posScore ≤ 1.50`, else no glyph. -/
def BadNagSpec (side : Bool) (posScore engScore : ℚ) : String :=
  let posScore := if !side then -posScore else posScore
  let engScore := if !side then -engScore else engScore
  if posScore ≥ engScore then "$5"
  else if posScore < -1.5 ∧ engScore ≥ -1.5 then "$4"
  else if posScore < -0.75 ∧ engScore ≥ -0.75 then "$2"
  else if posScore < -0.15 ∧ engScore ≥ -0.15 then "$6"
  else if engScore > 1.5 ∧ posScore ≤ 1.5 then "$2"
  else "$0"

/-- Embedding of `Analyze.GetGoodNag(side, posScore, engScore,
complexityNumber, moveChanges)`.  Returns `$3` very good, `$1` good,
`$5` interesting, `$0` none. -/
def GetGoodNag (side : Bool) (posScore engScore : ℚ)
    (complexityNumber moveChanges : Int) : String :=
  let posScore := if !side then -posScore else posScore
  let engScore := if !side then -engScore else engScore
  if posScore > engScore ∧ moveChanges ≥ 4 ∧ complexityNumber ≥ 45 ∧
      posScore ≥ 0.75 ∧ posScore ≤ 3.0 then "$3"
  else if moveChanges ≥ 3 ∧ complexityNumber ≥ 30 ∧
      posScore ≥ -0.15 ∧ posScore ≤ 3.0 then "$1"
  else if moveChanges ≥ 2 ∧ complexityNumber ≥ 20 ∧
      posScore ≥ -0.15 ∧ posScore ≤ 3.0 then "$5"
  else "$0"

/-- The threshold ladder claimed by the spec for `GoodNag`: VeryGood when
`posScore > engScore`, `moveChanges ≥ 4`, `complexityNumber ≥ 45`,
`0.75 ≤ posScore ≤ 3.0`; else Good when `moveChanges ≥ 3`,
`complexityNumber ≥ 30`, `-0.15 ≤ posScore ≤ 3.0`; else Interesting when
`moveChanges ≥ 2`, `complexityNumber ≥ 20`, `-0.15 ≤ posScore ≤ 3.0`;
else no glyph. -/
def GoodNagSpec (side : Bool) (posScore engScore : ℚ)
    (complexityNumber moveChanges : Int) : String :=
  let posScore := if !side then -posScore else posScore
  let engScore := if !side then -engScore else engScore
  if posScore > engScore ∧ moveChanges ≥ 4 ∧ complexityNumber ≥ 45 ∧
      posScore ≥ 0.75 ∧ posScore ≤ 3.0 then "$3"
  else if moveChanges ≥ 3 ∧ complexityNumber ≥ 30 ∧
      posScore ≥ -0.15 ∧ posScore ≤ 3.0 then "$1"
  else if moveChanges ≥ 2 ∧ complexityNumber ≥ 20 ∧
      posScore ≥ -0.15 ∧ posScore ≤ 3.0 then "$5"
  else "$0"

/-- Embedding of `Analyze.MateDistanceToValue(d)`. -/
def MateDistanceToValue (d : Int) : Int :=
  if d < 0 then -2 * d - MAX_SCORE
  else if d > 0 then MAX_SCORE - 2 * d + 1
  else 0

/-- A sample of the search trace saved by `GetSearchScoreAfterMove`:
`[searchDepth, pvMove]`. -/
structure TraceSample where
  depth : Int
  pvMove : String
deriving DecidableEq, Repr

/-- The loop body state of `Analyze.GetComplexityNumber`: `none` models the
Python state in which the local variables `lastMove` / `lastDepth` have not
been assigned yet (reading them raises `NameError`, modelled as the `none`
result), `some s` records the previous sample.  The accumulators are
`complexityNumber` (a sum of depths) and `moveChanges`. -/
def complexityLoop :
    Option TraceSample → Int → Nat → List TraceSample → Option (Int × Nat)
  | _, complexityNumber, moveChanges, [] => some (complexityNumber, moveChanges)
  | last, complexityNumber, moveChanges, n :: rest =>
    if n.depth ≥ 10 then
      match last with
      | none => none
      | some prev =>
        if n.pvMove ≠ prev.pvMove ∧ n.depth ≠ prev.depth then
          complexityLoop (some n) (complexityNumber + n.depth)
            (moveChanges + 1) rest
        else
          complexityLoop (some n) complexityNumber moveChanges rest
    else
      complexityLoop (some n) complexityNumber moveChanges rest

/-- Embedding of `Analyze.GetComplexityNumber(savedMove)`: returns
`(complexityNumber, moveChanges)`, or `none` when the Python code raises
`NameError` by reading `lastMove` before any assignment. -/
def GetComplexityNumber (savedMove : List TraceSample) : Option (Int × Nat) :=
  complexityLoop none 0 0 savedMove

end ChessArtist

namespace ChessArtist

/-- C1: `GetBadNag` implements exactly the spec's decision ladder with the
final unconditional Interesting override, and at side = White,
`posScore = engScore = -2.0` it returns `$5`. -/
theorem getBadNag_matches_spec :
    (∀ side posScore engScore,
      GetBadNag side posScore engScore = BadNagSpec side posScore engScore) ∧
    GetBadNag true (-2) (-2) = "$5" := by
  constructor
  · intro side posScore engScore
    unfold GetBadNag BadNagSpec
    by_cases h :
        (if !side then -posScore else posScore) ≥
          (if !side then -engScore else engScore)
    · simp only [if_pos h]
    · simp only [if_neg h]
  · norm_num [GetBadNag]

/-- C2: `GetGoodNag` implements exactly the spec's threshold ladder, and on
side = White, `moveChanges = 4`, `complexityNumber = 45`, `posScore = 1.0`,
`engScore = 0.5` it returns `$3`; with `complexityNumber = 44` it returns
`$1`. -/
theorem getGoodNag_matches_spec :
    (∀ side posScore engScore complexityNumber moveChanges,
      GetGoodNag side posScore engScore complexityNumber moveChanges =
        GoodNagSpec side posScore engScore complexityNumber moveChanges) ∧
    GetGoodNag true 1 0.5 45 4 = "$3" ∧
    GetGoodNag true 1 0.5 44 4 = "$1" := by
  refine ⟨?_, ?_, ?_⟩
  · intro side posScore engScore complexityNumber moveChanges
    rfl
  · norm_num [GetGoodNag]
  · norm_num [GetGoodNag]

/-- C5: mate values are strictly decreasing in the distance on each side of
zero, and for `1 ≤ |d| ≤ 1000` the value magnitude exceeds `29999`. -/
theorem mateDistanceToValue_props :
    (∀ d1 d2 : Int, 0 < d1 → d1 < d2 →
      MateDistanceToValue d1 > MateDistanceToValue d2) ∧
    (∀ d1 d2 : Int, d1 < d2 → d2 < 0 →
      MateDistanceToValue d1 > MateDistanceToValue d2) ∧
    (∀ d : Int, 1 ≤ |d| → |d| ≤ 1000 → |MateDistanceToValue d| > 29999) := by
  refine ⟨?_, ?_, ?_⟩
  · intro d1 d2 h1 h2
    simp only [MateDistanceToValue, MAX_SCORE, gt_iff_lt]
    split_ifs <;> omega
  · intro d1 d2 h1 h2
    simp only [MateDistanceToValue, MAX_SCORE, gt_iff_lt]
    split_ifs <;> omega
  · intro d h1 h2
    simp only [MateDistanceToValue, MAX_SCORE]
    rcases lt_trichotomy d 0 with hd | hd | hd
    · rw [abs_of_neg hd] at h1 h2
      rw [if_pos hd, abs_of_neg (show -2 * d - 32000 < 0 by omega)]
      omega
    · subst hd; norm_num at h1
    · rw [abs_of_pos hd] at h1 h2
      rw [if_neg (by omega), if_pos hd,
        abs_of_pos (show (0 : Int) < 32000 - 2 * d + 1 by omega)]
      omega

/-- Closed instance of `mateDistanceToValue_props`. -/
theorem mateDistanceToValue_props_witness :
    MateDistanceToValue 1 > MateDistanceToValue 2 ∧
    MateDistanceToValue (-2) > MateDistanceToValue (-1) ∧
    |MateDistanceToValue 3| > 29999 :=
  ⟨mateDistanceToValue_props.1 1 2 (by decide) (by decide),
   mateDistanceToValue_props.2.1 (-2) (-1) (by decide) (by decide),
   mateDistanceToValue_props.2.2 3 (by decide) (by decide)⟩

/-- C3 (counterexample): on the trace `[(9, a), (10, b)]` the result differs
from the result on the trace with the sub-10 sample removed — the depth-10
sample is compared against the discarded depth-9 sample and contributes
`(10, 1)`, while on the filtered trace the scan reads the previous-sample
variables before assignment. -/
theorem getComplexityNumber_filter_counterexample :
    ¬ (GetComplexityNumber [⟨9, "a"⟩, ⟨10, "b"⟩] =
        GetComplexityNumber
          (([⟨9, "a"⟩, ⟨10, "b"⟩] : List TraceSample).filter
            (fun n => n.depth ≥ 10))) := by
  decide

/-- C3 (amended): a sample of depth below 10 adds nothing to
`complexityNumber` or `moveChanges`, but it does replace the previous-sample
state used by later comparisons; consequently a depth ≥ 10 sample preceded
only by sub-10 samples can still contribute, as on `[(9, a), (10, b)]`. -/
theorem complexity_sub10_updates_state_only :
    (∀ last complexityNumber moveChanges (n : TraceSample) rest,
      n.depth < 10 →
      complexityLoop last complexityNumber moveChanges (n :: rest) =
        complexityLoop (some n) complexityNumber moveChanges rest) ∧
    GetComplexityNumber [⟨9, "a"⟩, ⟨10, "b"⟩] = some (10, 1) := by
  constructor
  · intro last c m n rest h
    simp only [complexityLoop]
    rw [if_neg (by omega : ¬ n.depth ≥ 10)]
  · decide

/-- Closed instance of `complexity_sub10_updates_state_only`. -/
theorem complexity_sub10_updates_state_only_witness :
    complexityLoop none 0 0 [⟨9, "a"⟩] =
      complexityLoop (some ⟨9, "a"⟩) 0 0 [] :=
  complexity_sub10_updates_state_only.1 none 0 0 ⟨9, "a"⟩ [] (by decide)

/-- Once the previous-sample state is assigned, the scan always returns a
pair. -/
theorem complexityLoop_some_total (rest : List TraceSample) :
    ∀ prev complexityNumber moveChanges,
      ∃ p, complexityLoop (some prev) complexityNumber moveChanges rest =
        some p := by
  induction rest with
  | nil => intro prev c m; exact ⟨(c, m), rfl⟩
  | cons n rest ih =>
    intro prev c m
    simp only [complexityLoop]
    by_cases h : n.depth ≥ 10
    · rw [if_pos h]
      by_cases h2 : n.pvMove ≠ prev.pvMove ∧ n.depth ≠ prev.depth
      · rw [if_pos h2]; exact ih n _ _
      · rw [if_neg h2]; exact ih n _ _
    · rw [if_neg h]; exact ih n _ _

/-- C4: `GetComplexityNumber` errors (reads `lastMove`/`lastDepth`
unassigned, a `NameError`) exactly on the non-empty traces whose first
sample has depth ≥ 10; it returns a pair on the empty trace and on every
trace whose first sample has depth < 10. -/
theorem getComplexityNumber_totality :
    (∀ (n : TraceSample) rest, 10 ≤ n.depth →
      GetComplexityNumber (n :: rest) = none) ∧
    GetComplexityNumber [] = some (0, 0) ∧
    (∀ (n : TraceSample) rest, n.depth < 10 →
      ∃ p, GetComplexityNumber (n :: rest) = some p) := by
  refine ⟨?_, rfl, ?_⟩
  · intro n rest h
    unfold GetComplexityNumber
    simp only [complexityLoop]
    rw [if_pos (show n.depth ≥ 10 from h)]
  · intro n rest h
    unfold GetComplexityNumber
    simp only [complexityLoop]
    rw [if_neg (by omega : ¬ n.depth ≥ 10)]
    exact complexityLoop_some_total rest n 0 0

/-- Closed instance of `getComplexityNumber_totality`. -/
theorem getComplexityNumber_totality_witness :
    GetComplexityNumber [⟨10, "c"⟩] = none ∧
    ∃ p, GetComplexityNumber [⟨9, "d"⟩, ⟨12, "e"⟩] = some p :=
  ⟨getComplexityNumber_totality.1 ⟨10, "c"⟩ [] (by decide),
   getComplexityNumber_totality.2.2 ⟨9, "d"⟩ [⟨12, "e"⟩] (by decide)⟩

end ChessArtist

namespace ChessArtist

/-- Embedding of the fallback in `Analyze.GetEngineIdName`: the id is
initialised to `self.eng[0:-4]`, the engine path with its last four
characters removed (empty when the path has at most four characters); this
value is returned when no `id name` line arrives before `uciok`. -/
def fallbackEngineIdName (eng : String) : String :=
  String.mk (eng.toList.take (eng.toList.length - 4))

/-- Stated from the spec's words for comparison: the engine filename minus
its trailing extension — everything before the last dot, or the whole name
when there is no dot. -/
def specNameMinusExt (eng : String) : String :=
  let cs := eng.toList
  if cs.contains '.' then
    String.mk ((cs.reverse.drop (cs.reverse.indexOf '.' + 1)).reverse)
  else eng

/-- C7 (counterexample): on the extensionless path `engine` the code's
fallback keeps only `en`, not the full name the spec's
filename-minus-extension rule gives. -/
theorem engineIdFallback_counterexample :
    fallbackEngineIdName "engine" = "en" ∧
    specNameMinusExt "engine" = "engine" ∧
    fallbackEngineIdName "engine" ≠ specNameMinusExt "engine" := by
  refine ⟨?_, ?_, ?_⟩ <;> decide

/-- C7 (amended): the fallback identifier is the engine path with its last
four characters removed, which coincides with the filename minus its
extension exactly in the intended `.xyz` case of a three-character
extension. -/
theorem engineIdFallback_amended :
    (∀ l ext : List Char, ext.length = 3 →
      fallbackEngineIdName (String.mk (l ++ '.' :: ext)) = String.mk l) ∧
    specNameMinusExt "engine.exe" = fallbackEngineIdName "engine.exe" := by
  constructor
  · intro l ext h
    unfold fallbackEngineIdName
    have h4 : (String.mk (l ++ '.' :: ext)).toList.length - 4 = l.length := by
      show (l ++ '.' :: ext).length - 4 = l.length
      simp [List.length_append, h]
    rw [h4]
    show String.mk ((l ++ '.' :: ext).take l.length) = String.mk l
    rw [List.take_left]
  · decide

/-- Closed instance of `engineIdFallback_amended`. -/
theorem engineIdFallback_amended_witness :
    fallbackEngineIdName (String.mk
      (['S', 'f'] ++ '.' :: ['e', 'x', 'e'])) = String.mk ['S', 'f'] :=
  engineIdFallback_amended.1 ['S', 'f'] ['e', 'x', 'e'] (by decide)

end ChessArtist

namespace ChessArtist

/-- The dispatch of `Analyze.WriteNotation` on game over and on the presence
of `posScore`, `bookMove` and `engMove`: which combination of data is
written for the half-move. -/
inductive WrittenMove
  | sanOnly
  | posScoreOnly
  | posScoreBook
  | posScoreEng
  | posScoreBookEng
  | bookOnly
  | bookEng
  | engOnly
  | noWrite
deriving DecidableEq, Repr

/-- Embedding of `Analyze.WriteNotation` cases (0)-(8) in source order. -/
def writeMoveCase (bookMove : Option String) (posScore : Option ℚ)
    (isGameOver : Bool) (engMove : Option String) : WrittenMove :=
  if isGameOver then .sanOnly
  else if posScore.isSome ∧ bookMove.isNone ∧ engMove.isNone then .posScoreOnly
  else if posScore.isSome ∧ bookMove.isSome ∧ engMove.isNone then .posScoreBook
  else if posScore.isSome ∧ bookMove.isNone ∧ engMove.isSome then .posScoreEng
  else if posScore.isSome ∧ bookMove.isSome ∧ engMove.isSome then
    .posScoreBookEng
  else if posScore.isNone ∧ bookMove.isSome ∧ engMove.isNone then .bookOnly
  else if posScore.isNone ∧ bookMove.isSome ∧ engMove.isSome then .bookEng
  else if posScore.isNone ∧ bookMove.isNone ∧ engMove.isSome then .engOnly
  else if posScore.isNone ∧ bookMove.isNone then .sanOnly
  else .noWrite

/-- Step (3) of the `AnnotatePgn` loop: `posScore` stays `None` unless the
eval option is `static` or `search`. -/
def evalPosScore (evalOpt : String) (staticScore searchScore : ℚ) :
    Option ℚ :=
  if evalOpt = "static" then some staticScore
  else if evalOpt = "search" then some searchScore
  else none

/-- The configuration fields of `Analyze` read by the per-half-move logic of
`AnnotatePgn`. -/
structure AnnotateConfig where
  bookOpt : String
  evalOpt : String
  jobOpt : String
  moveStartOpt : Nat
deriving DecidableEq, Repr

/-- The data of one half-move together with the replies the external engine
and book would give if consulted. -/
structure HalfMoveOracle where
  fmvn : Nat
  isCereEnd : Bool
  cereProbe : Option String
  staticScore : ℚ
  searchScore : ℚ
  engBestMove : String
  isGameOver : Bool
deriving DecidableEq, Repr

/-- What one iteration of the `AnnotatePgn` loop did for a half-move. -/
structure HalfMoveResult where
  probedBook : Bool
  posEvalRan : Bool
  engSearchRan : Bool
  written : Option WrittenMove
  isCereEndAfter : Bool
deriving DecidableEq, Repr

/-- Embedding of steps (0)-(6) of the per-half-move body of
`Analyze.AnnotatePgn`.  `probedBook` records a `GetCerebellumBookMove` call,
`posEvalRan` an engine evaluation of the played move (step 3),
`engSearchRan` a `GetSearchScoreBeforeMove` call (step 4), and
`written = none` models the `TypeError` that `abs(posScore)` raises at
step (4) when `posScore` is still `None`, aborting the half-move before any
output. -/
def annotateHalfMove (cfg : AnnotateConfig) (o : HalfMoveOracle) :
    HalfMoveResult :=
  if o.fmvn < cfg.moveStartOpt ∧ cfg.bookOpt ≠ "cerebellum" then
    { probedBook := false, posEvalRan := false, engSearchRan := false,
      written := some (writeMoveCase none none false none),
      isCereEndAfter := o.isCereEnd }
  else
    let probe : Bool := decide (cfg.bookOpt = "cerebellum") && !o.isCereEnd
    let cereBookMove : Option String := if probe then o.cereProbe else none
    let cereEnd : Bool :=
      if probe && cereBookMove.isNone && decide (o.fmvn > BOOK_MOVE_LIMIT)
      then true else o.isCereEnd
    if o.fmvn < cfg.moveStartOpt ∧ cereBookMove.isSome then
      { probedBook := probe, posEvalRan := false, engSearchRan := false,
        written := some (writeMoveCase cereBookMove none false none),
        isCereEndAfter := cereEnd }
    else
      match evalPosScore cfg.evalOpt o.staticScore o.searchScore with
      | none =>
        { probedBook := probe,
          posEvalRan := decide (cfg.evalOpt = "static" ∨
            cfg.evalOpt = "search"),
          engSearchRan := false, written := none, isCereEndAfter := cereEnd }
      | some s =>
        { probedBook := probe,
          posEvalRan := decide (cfg.evalOpt = "static" ∨
            cfg.evalOpt = "search"),
          engSearchRan := decide (|s| ≤ WIN_SCORE ∧ cfg.jobOpt = "analyze"),
          written := some (writeMoveCase cereBookMove (some s) o.isGameOver
            (if |s| ≤ WIN_SCORE ∧ cfg.jobOpt = "analyze"
             then some o.engBestMove else none)),
          isCereEndAfter := cereEnd }

/-- The startup validation of `main` for a PGN input file: the run is
rejected when book and eval options are both `none`, or when the job option
is not `analyze`. -/
def pgnConfigAccepted (bookOption evalOption jobOption : String) : Bool :=
  if bookOption = "none" ∧ evalOption = "none" then false
  else if jobOption ≠ "analyze" then false
  else true

end ChessArtist

namespace ChessArtist

/-- C6 (counterexample): below the consultation ply with a cerebellum book
configured whose probe returns nothing, the loop does not write the bare
move and skip engine work — it falls through to engine evaluation and an
engine search. -/
theorem annotate_belowMoveStart_counterexample :
    ¬ ((annotateHalfMove ⟨"cerebellum", "static", "analyze", 8⟩
          ⟨1, false, none, 0, 0, "e4", false⟩).posEvalRan = false ∧
       (annotateHalfMove ⟨"cerebellum", "static", "analyze", 8⟩
          ⟨1, false, none, 0, 0, "e4", false⟩).engSearchRan = false ∧
       (annotateHalfMove ⟨"cerebellum", "static", "analyze", 8⟩
          ⟨1, false, none, 0, 0, "e4", false⟩).written =
         some .sanOnly) := by
  decide

/-- C6 (amended): below the consultation ply the loop writes the raw SAN
move and performs no book probe and no engine work when no cerebellum book
is configured; when a cerebellum book is configured but its probe returns
nothing, engine evaluation proceeds even below the consultation ply. -/
theorem annotate_belowMoveStart_amended (cfg : AnnotateConfig)
    (o : HalfMoveOracle) (h1 : o.fmvn < cfg.moveStartOpt)
    (h2 : cfg.bookOpt ≠ "cerebellum") :
    annotateHalfMove cfg o =
      { probedBook := false, posEvalRan := false, engSearchRan := false,
        written := some .sanOnly, isCereEndAfter := o.isCereEnd } := by
  unfold annotateHalfMove
  rw [if_pos ⟨h1, h2⟩]
  rfl

/-- Closed instance of `annotate_belowMoveStart_amended`. -/
theorem annotate_belowMoveStart_amended_witness :
    annotateHalfMove ⟨"none", "static", "analyze", 8⟩
        ⟨1, false, none, 0, 0, "e4", false⟩ =
      { probedBook := false, posEvalRan := false, engSearchRan := false,
        written := some .sanOnly, isCereEndAfter := false } :=
  annotate_belowMoveStart_amended ⟨"none", "static", "analyze", 8⟩
    ⟨1, false, none, 0, 0, "e4", false⟩ (by decide) (by decide)

/-- C9: the PGN startup validation accepts eval option `none` together with
a cerebellum book, yet every half-move that reaches the search-decision
step aborts there: with eval `none`, `posScore` is still absent and
`abs(posScore)` raises a `TypeError`, so nothing is written for the
half-move and no engine search is made. -/
theorem annotate_evalNone_typeError :
    pgnConfigAccepted "cerebellum" "none" "analyze" = true ∧
    ∀ (cfg : AnnotateConfig) (o : HalfMoveOracle),
      cfg.evalOpt = "none" → cfg.moveStartOpt ≤ o.fmvn →
      (annotateHalfMove cfg o).written = none ∧
      (annotateHalfMove cfg o).engSearchRan = false := by
  refine ⟨rfl, ?_⟩
  intro cfg o h1 h2
  have hnot : ¬ o.fmvn < cfg.moveStartOpt := Nat.not_lt.mpr h2
  simp [annotateHalfMove, evalPosScore, hnot, h1]

/-- Closed instance of `annotate_evalNone_typeError`. -/
theorem annotate_evalNone_typeError_witness :
    (annotateHalfMove ⟨"cerebellum", "none", "analyze", 8⟩
        ⟨8, false, none, 0, 0, "e4", false⟩).written = none ∧
    (annotateHalfMove ⟨"cerebellum", "none", "analyze", 8⟩
        ⟨8, false, none, 0, 0, "e4", false⟩).engSearchRan = false :=
  annotate_evalNone_typeError.2 ⟨"cerebellum", "none", "analyze", 8⟩
    ⟨8, false, none, 0, 0, "e4", false⟩ rfl (by decide)

end ChessArtist

namespace ChessArtist

/-- Embedding of `Analyze.IsCorrectEngineBm(engineBm, epdBm)`: scan the
accepted best moves and stop at the first exact match. -/
def IsCorrectEngineBm (engineBm : String) : List String → Bool
  | [] => false
  | ebm :: rest =>
    if engineBm = ebm then true else IsCorrectEngineBm engineBm rest

/-- One line of the EPD test suite, as `TestEngineWithEpd` sees it:
whether the position is checkmate/stalemate, whether a `bm` opcode is
present, the accepted best moves, and the move the engine search would
return on it. -/
structure EpdRecord where
  isGameOver : Bool
  hasBm : Bool
  epdBm : List String
  engineBm : String
deriving DecidableEq, Repr

/-- A record neither terminal nor missing its `bm` opcode. -/
def epdValid (r : EpdRecord) : Bool := !r.isGameOver && r.hasBm

/-- The loop body of `Analyze.TestEngineWithEpd` on the counter triple
`(cntEpd, cntValidEpd, cntCorrect)`: every line bumps `cntEpd`, terminal
and `bm`-less lines are skipped, otherwise the line is valid and counted
correct when the engine best move matches. -/
def epdStep (c : Nat × Nat × Nat) (r : EpdRecord) : Nat × Nat × Nat :=
  if r.isGameOver then (c.1 + 1, c.2.1, c.2.2)
  else if ¬ r.hasBm then (c.1 + 1, c.2.1, c.2.2)
  else (c.1 + 1, c.2.1 + 1,
    if IsCorrectEngineBm r.engineBm r.epdBm then c.2.2 + 1 else c.2.2)

/-- The summary `Analyze.TestEngineWithEpd` prints and appends to the
output file. -/
structure EpdTestSummary where
  cntEpd : Nat
  cntValidEpd : Nat
  cntCorrect : Nat
  pctCorrect : ℚ
  reportWritten : Bool
deriving DecidableEq, Repr

/-- Embedding of `Analyze.TestEngineWithEpd`: fold the loop body over the
lines, then compute `pctCorrect` as `100*cntCorrect/cntValidEpd` guarded by
`if cntValidEpd:`, and write the summary unconditionally. -/
def TestEngineWithEpd (records : List EpdRecord) : EpdTestSummary :=
  let c := records.foldl epdStep (0, 0, 0)
  { cntEpd := c.1, cntValidEpd := c.2.1, cntCorrect := c.2.2,
    pctCorrect :=
      if c.2.1 ≠ 0 then (100 * c.2.2 : ℚ) / (c.2.1 : ℚ) else 0,
    reportWritten := true }

end ChessArtist

namespace ChessArtist

/-- The fold of `epdStep` adds, to any starting counters, the line count,
the valid-record count and the correct-record count of the list. -/
theorem epdStep_foldl (records : List EpdRecord) :
    ∀ a b c : Nat, records.foldl epdStep (a, b, c) =
      (a + records.length,
       b + (records.filter epdValid).length,
       c + ((records.filter epdValid).filter
         (fun r => IsCorrectEngineBm r.engineBm r.epdBm)).length) := by
  induction records with
  | nil => intro a b c; simp
  | cons r rest ih =>
    intro a b c
    obtain ⟨go, hb, bmlist, ebm⟩ := r
    cases go <;> cases hb <;>
      by_cases hc : IsCorrectEngineBm ebm bmlist = true <;>
      simp [epdStep, epdValid, List.filter_cons, hc, ih, Prod.ext_iff] <;>
      omega

/-- Membership characterisation of the match scan. -/
theorem isCorrectEngineBm_iff_mem (e : String) (l : List String) :
    IsCorrectEngineBm e l = true ↔ e ∈ l := by
  induction l with
  | nil => simp [IsCorrectEngineBm]
  | cons b rest ih =>
    by_cases hb : e = b <;> simp [IsCorrectEngineBm, hb, ih]

/-- C8: the EPD test counts every line in `cntEpd`, counts only
non-terminal `bm`-bearing lines in `cntValidEpd`, counts in `cntCorrect`
exactly the valid lines whose engine best move equals one of the accepted
`bm` moves, and, whenever some line was valid, reports exactly
`100*cntCorrect/cntValidEpd`. -/
theorem testEngineWithEpd_counts (records : List EpdRecord) :
    (TestEngineWithEpd records).cntEpd = records.length ∧
    (TestEngineWithEpd records).cntValidEpd =
      (records.filter epdValid).length ∧
    (TestEngineWithEpd records).cntCorrect =
      ((records.filter epdValid).filter
        (fun r => IsCorrectEngineBm r.engineBm r.epdBm)).length ∧
    (∀ (e : String) (l : List String),
      IsCorrectEngineBm e l = true ↔ e ∈ l) ∧
    ((TestEngineWithEpd records).cntValidEpd ≠ 0 →
      (TestEngineWithEpd records).pctCorrect =
        (100 * (TestEngineWithEpd records).cntCorrect : ℚ) /
          ((TestEngineWithEpd records).cntValidEpd : ℚ)) := by
  have hf := epdStep_foldl records 0 0 0
  refine ⟨?_, ?_, ?_, isCorrectEngineBm_iff_mem, ?_⟩
  · simp only [TestEngineWithEpd, hf, Nat.zero_add]
  · simp only [TestEngineWithEpd, hf, Nat.zero_add]
  · simp only [TestEngineWithEpd, hf, Nat.zero_add]
  · intro h
    simp only [TestEngineWithEpd, hf, Nat.zero_add] at h ⊢
    rw [if_pos h]

/-- Closed instance of `testEngineWithEpd_counts`. -/
theorem testEngineWithEpd_counts_witness :
    (TestEngineWithEpd [⟨false, true, ["e4", "d4"], "e4"⟩,
        ⟨true, false, [], "a3"⟩]).pctCorrect =
      (100 * (TestEngineWithEpd [⟨false, true, ["e4", "d4"], "e4"⟩,
        ⟨true, false, [], "a3"⟩]).cntCorrect : ℚ) /
        ((TestEngineWithEpd [⟨false, true, ["e4", "d4"], "e4"⟩,
          ⟨true, false, [], "a3"⟩]).cntValidEpd : ℚ) :=
  (testEngineWithEpd_counts _).2.2.2.2 (by decide)

/-- C10: when no record is valid the guarded division is skipped, the
reported percentage is exactly `0`, and the summary is still written with
the line and counter totals. -/
theorem testEngineWithEpd_zeroValid (records : List EpdRecord)
    (h : (TestEngineWithEpd records).cntValidEpd = 0) :
    (TestEngineWithEpd records).pctCorrect = 0 ∧
    (TestEngineWithEpd records).reportWritten = true ∧
    (TestEngineWithEpd records).cntEpd = records.length := by
  refine ⟨?_, rfl, ?_⟩
  · simp only [TestEngineWithEpd] at h ⊢
    rw [if_neg (by simpa using h)]
  · simp only [TestEngineWithEpd, epdStep_foldl records 0 0 0, Nat.zero_add]

/-- Closed instance of `testEngineWithEpd_zeroValid`. -/
theorem testEngineWithEpd_zeroValid_witness :
    (TestEngineWithEpd [⟨true, true, ["e4"], "e4"⟩,
        ⟨false, false, [], "c5"⟩]).pctCorrect = 0 ∧
    (TestEngineWithEpd [⟨true, true, ["e4"], "e4"⟩,
        ⟨false, false, [], "c5"⟩]).reportWritten = true ∧
    (TestEngineWithEpd [⟨true, true, ["e4"], "e4"⟩,
        ⟨false, false, [], "c5"⟩]).cntEpd = 2 :=
  testEngineWithEpd_zeroValid [⟨true, true, ["e4"], "e4"⟩,
    ⟨false, false, [], "c5"⟩] (by decide)

end ChessArtist
